import Mathlib

set_option maxRecDepth 8192
set_option maxHeartbeats 1000000

/-!
# Verification of the logm Handler–Formatter–Writer pipeline

Shallow embedding of the `pkg/logm` logging pipeline (Go):

* `pkg/logm/handler.go` — `Handler` (`Enabled`, `Handle`, `WithAttrs`,
  `WithGroup`, `clone`, `toRecord`);
* `pkg/logm/formatter/*` — `JSONFormatter`, `TextFormatter`,
  `ColorTextFormatter` (the variant with the `enableColor` field and the
  package-local `color*` constants), `EscapeJSON`, `clipPath`/`clipPrefix`/
  `clipToDepth`/`countDepth`, `FormatSource`, `formatTime`;
* `pkg/logm/writer/async.go` — `AsyncWriter`.

Modelling conventions:

* Go slices become Lean lists; `bytes.Buffer` write sequences become string
  concatenation in the same order as the source's `Write*` calls.
* `slog.Level` is an `Int` (Debug = -4, Info = 0, Warn = 4, Error = 8).
* Time instants are opaque (`Time := Nat`); the Go layout engine
  (`time.Time.Format`, standard library, outside this repository) is a
  function parameter `GoTimeFormat` threaded through the formatters, and a
  `Location` (timezone lookup, out of scope per the spec) is an arbitrary
  function on instants.
* `slog.Value` is restricted to the kinds the claims exercise
  (string / int64 / float64 / bool / group); float64 values are modelled as
  exact decimal numbers (`Decimal`), for which Go's
  `strconv.FormatFloat(v, 'f', -1, 64)` prints the shortest decimal form —
  the only float values the claims touch are of this shape.
* `encoding/json.Unmarshal` (standard library) is modelled by an executable
  fuel-based JSON reader producing the same value universe Go's decoder
  produces for `any` (`null`/`bool`/`float64`/`string`/`[]any`/
  `map[string]any`); object fields keep their textual order (Go map
  iteration order is unspecified; no claim depends on the order).
* Formatter and Writer plugin interfaces are functions; a Writer's `Write`
  result is its success bit, and `Handler.Handle` additionally returns the
  trace of Formatter invocations and attempted writes, which is the
  observable the claims talk about.
-/

/-- slog.Level: an integer severity. -/
abbrev Level := Int

/-- slog.LevelDebug. -/
def LevelDebug : Level := -4

/-- slog.LevelInfo. -/
def LevelInfo : Level := 0

/-- slog.LevelWarn. -/
def LevelWarn : Level := 4

/-- slog.LevelError. -/
def LevelError : Level := 8

/-- formatter.LevelName (level.go): name component of DefaultLevelInfo. -/
def LevelName (level : Level) : String :=
  if level < LevelInfo then "DEBUG"
  else if level < LevelWarn then "INFO"
  else if level < LevelError then "WARN"
  else "ERROR"

/-- ANSI color codes (package-local constants of part_002). -/
def colorReset : String := "\x1b[0m"

def colorRed : String := "\x1b[31m"

def colorGreen : String := "\x1b[32m"

def colorYellow : String := "\x1b[33m"

def colorBlue : String := "\x1b[34m"

def colorPurple : String := "\x1b[35m"

def colorCyan : String := "\x1b[36m"

def colorGray : String := "\x1b[90m"

def colorBold : String := "\x1b[1m"

/-- An opaque time instant. No claim inspects the rendered time, so the
concrete carrier is irrelevant; `Nat` keeps everything executable. -/
abbrev Time := Nat

/-- A timezone (`*time.Location`): per the spec, timezone lookup is an
external collaborator, "a pure function from a timezone identifier to a
fixed UTC offset"; `t.In(loc)` is modelled as applying the function. -/
abbrev Location := Time → Time

/-- Go's `time.Time.Format` layout engine (standard library, external):
takes the (location-adjusted) instant and a layout string. -/
abbrev GoTimeFormat := Time → String → String

/-- An exact decimal number `mant / 10 ^ scale`.  Models the Go `float64`
values appearing in the claims (all decimally exact, so Go's shortest
round-trip formatting `strconv.FormatFloat(_, 'f', -1, 64)` prints exactly
the shortest decimal form computed by `Decimal.render`). -/
structure Decimal where
  mant : Int
  scale : Nat
  deriving Repr, DecidableEq

/-- Strip trailing zero decimals (loop of the shortest-form normalization). -/
def normAux : Int → Nat → Int × Nat
  | m, 0 => (m, 0)
  | m, s + 1 => if m % 10 = 0 then normAux (m / 10) s else (m, s + 1)

/-- Strip trailing zero decimals: the shortest-form normalization. -/
def Decimal.normalize (x : Decimal) : Decimal :=
  let p := normAux x.mant x.scale
  ⟨p.1, p.2⟩

/-- Decimal digit string of a `Nat`, left-padded with zeros to width `w`. -/
def padDigits (n : Nat) (w : Nat) : String :=
  let d := toString n
  if d.length < w then String.mk (List.replicate (w - d.length) '0') ++ d else d

/-- Render a decimal in Go `strconv.FormatFloat(_, 'f', -1, 64)` style
(shortest fixed-point form, no exponent, no trailing zeros). -/
def Decimal.render (x : Decimal) : String :=
  let d := x.normalize
  if d.scale = 0 then toString d.mant
  else
    let sign := if d.mant < 0 then "-" else ""
    let digits := (padDigits d.mant.natAbs (d.scale + 1)).data
    let k := digits.length - d.scale
    sign ++ String.mk (digits.take k) ++ "." ++ String.mk (digits.drop k)

/-- slog.Value, restricted to the kinds the claims exercise.
`group` corresponds to `slog.KindGroup` and carries its attribute list
(key/value pairs). -/
inductive Value where
  | str (s : String)
  | int (i : Int)
  | float (d : Decimal)
  | bool (b : Bool)
  | group (attrs : List (String × Value))
  deriving Repr

/-- slog.Attr: a key plus a value. -/
abbrev Attr := String × Value

/-- Go's `strconv.Quote` restricted to the characters the pipeline meets:
wraps in double quotes and backslash-escapes quote, backslash and the
common control characters (other control bytes take Go's `\xHH` form). -/
def goQuoteChar (c : Char) : String :=
  if c = '"' then "\\\""
  else if c = '\\' then "\\\\"
  else if c = '\n' then "\\n"
  else if c = '\r' then "\\r"
  else if c = '\t' then "\\t"
  else if c.toNat < 0x20 then
    "\\x" ++ padDigits c.toNat 2
  else String.singleton c

/-- Go's `strconv.Quote` (standard library, external). -/
def goQuote (s : String) : String :=
  "\"" ++ String.join (s.data.map goQuoteChar) ++ "\""

/-- formatter.Options (formatter.go). -/
structure Options where
  TimeFormat : String
  Location : Location
  SourceClip : String
  SourceDepth : Int

/-- formatter.defaultOptions: `datetime` format, local timezone (an
arbitrary location — nothing observable depends on it). -/
def defaultOptions (localLoc : Location) : Options :=
  { TimeFormat := "datetime", Location := localLoc, SourceClip := "", SourceDepth := 0 }

/-- formatter.formatTime (formatter.go): named formats select a Go layout;
anything else is itself a layout (empty string falls back to datetime). -/
def formatTime (gt : GoTimeFormat) (t : Time) (format : String) : String :=
  if format = "time" then gt t "15:04:05"
  else if format = "timems" then gt t "15:04:05.000"
  else if format = "datetime" then gt t "2006-01-02 15:04:05"
  else if format = "rfc3339" then gt t "2006-01-02T15:04:05Z07:00"
  else if format = "rfc3339ms" then gt t "2006-01-02T15:04:05.000Z07:00"
  else if format = "" then gt t "2006-01-02 15:04:05"
  else gt t format

/-- slog.Source. -/
structure Source where
  Function : String
  File : String
  Line : Int
  deriving Repr

/-- formatter.clipPrefix (source clipping): strip the literal leading text,
and when it ends in a slash also drop the path segment that follows
(the project directory). -/
def clipPre (path pre : String) : String :=
  if pre.data.isPrefixOf path.data then
    let p := path.data.drop pre.data.length
    if pre.data.getLast? = some '/' then
      match p.findIdx? (fun c => c = '/') with
      | some idx => if idx > 0 then String.mk (p.drop (idx + 1)) else String.mk p
      | none => String.mk p
    else String.mk p
  else path

/-- formatter.countDepth. -/
def countDepth (path : String) : Nat :=
  if path = "" then 0 else path.data.count '/' + 1

/-- Loop of formatter.clipToDepth, walking the reversed character list
(the source scans from the last byte towards the first), collecting the
kept suffix in `acc`; `none` means the loop finished without the slash
count reaching the depth. -/
def clipToDepthGo : List Char → Nat → List Char → Option String
  | [], _, _ => none
  | c :: rest, d, acc =>
    if c = '/' then
      if d = 1 then
        if acc ≠ [] then some (String.mk acc)
        else some (String.mk ('/' :: acc))
      else clipToDepthGo rest (d - 1) ('/' :: acc)
    else clipToDepthGo rest d (c :: acc)

/-- formatter.clipToDepth: keep the last `depth` path levels. -/
def clipToDepth (path : String) (depth : Int) : String :=
  if depth ≤ 0 then path
  else
    match clipToDepthGo path.data.reverse depth.toNat [] with
    | some s => s
    | none => path

/-- formatter.clipPath: first the configured literal clip, then depth
clipping (default depth 3; applied to absolute paths, or after a
successful clip when the result is still deeper than the target). -/
def clipPath (path : String) (opts : Options) : String :=
  let originalPath := path
  let path1 := if opts.SourceClip ≠ "" then clipPre path opts.SourceClip else path
  let targetDepth : Int := if opts.SourceDepth ≤ 0 then 3 else opts.SourceDepth
  if path1 ≠ originalPath then
    if (countDepth path1 : Int) ≤ targetDepth then path1
    else clipToDepth path1 targetDepth
  else if path1.length > 0 ∧ path1.data.head? = some '/' then
    clipToDepth path1 targetDepth
  else path1

/-- formatter.FormatSource: "file:line" after path clipping (the source's
nil-source guard lives at the call sites here, which all match on
`Option Source`). -/
def FormatSource (source : Source) (opts : Options) : String :=
  clipPath source.File opts ++ ":" ++ toString source.Line

/-- One character of formatter.EscapeJSON (escape.go). -/
def escapeJSONChar (c : Char) : String :=
  if c = '"' then "\\\""
  else if c = '\\' then "\\\\"
  else if c = '\n' then "\\n"
  else if c = '\r' then "\\r"
  else if c = '\t' then "\\t"
  else if c.toNat < 0x20 then
    "\\u00" ++ String.singleton ("0123456789abcdef".data.getD (c.toNat >>> 4) '0')
      ++ String.singleton ("0123456789abcdef".data.getD (c.toNat &&& 0xf) '0')
  else String.singleton c

/-- The range loop of formatter.EscapeJSON. -/
def escLoop : List Char → String
  | [] => ""
  | c :: rest => escapeJSONChar c ++ escLoop rest

/-- formatter.EscapeJSON: escape JSON string content (quotes excluded). -/
def EscapeJSON (s : String) : String :=
  escLoop s.data

/-- formatter.writeJSONString. -/
def writeJSONString (s : String) : String :=
  "\"" ++ EscapeJSON s ++ "\""

/-- The quoting trigger of formatter.writeTextValue: space, double quote,
equals sign, newline, carriage return or tab. -/
def needQuoteChar (c : Char) : Bool :=
  c = ' ' || c = '"' || c = '=' || c = '\n' || c = '\r' || c = '\t'

/-- One character of the quoted branch of formatter.writeTextValue:
exactly five characters are escaped, everything else (control bytes
included) is written unchanged. -/
def escapeTextChar (c : Char) : String :=
  if c = '"' then "\\\""
  else if c = '\\' then "\\\\"
  else if c = '\n' then "\\n"
  else if c = '\r' then "\\r"
  else if c = '\t' then "\\t"
  else String.singleton c

/-- formatter.writeTextValue (text formatter): quote and escape when a
trigger character occurs (or the value is empty), else write verbatim. -/
def writeTextValue (s : String) : String :=
  let needQuote := s.data.any needQuoteChar
  if !needQuote && s.length > 0 then s
  else "\"" ++ String.join (s.data.map escapeTextChar) ++ "\""

example : writeTextValue "abc" = "abc" := by decide
example : writeTextValue "a b" = "\"a b\"" := by decide
example : Decimal.render ⟨11, 1⟩ = "1.1" := by decide
example : Decimal.render ⟨30, 0⟩ = "30" := by decide
example : Decimal.render ⟨300, 1⟩ = "30" := by decide
example : clipToDepth "/a/b/c/d.go" 3 = "b/c/d.go" := by decide
example : clipPre "/workspace/myproject/pkg/main.go" "/workspace/" = "pkg/main.go" := by decide

/-- formatter.Record (formatter.go): the unit handed to a Formatter. -/
structure Record where
  Time : Time
  Level : Level
  Message : String
  Attrs : List Attr
  Source : Option Source
  Groups : List String

/-- formatter.TextFormatter. -/
structure TextFormatter where
  opts : Options

mutual

/-- TextFormatter.writeValue (value, dotted path so far). Only the value
kinds of `Value` appear; the group arm reproduces the source loop,
including its use of the path with the trailing dot removed between
successive group members. -/
def TextFormatter.writeValue : Value → String → String
  | .str s, _ => writeTextValue s
  | .int i, _ => toString i
  | .float d, _ => d.render
  | .bool b, _ => if b then "true" else "false"
  | .group attrs, pre => TextFormatter.writeGroupList attrs pre 0

/-- Loop of the KindGroup arm of TextFormatter.writeValue. -/
def TextFormatter.writeGroupList : List Attr → String → Nat → String
  | [], _, _ => ""
  | a :: rest, pre, i =>
    (if i > 0 then " " ++ String.mk pre.data.dropLast else "")
      ++ TextFormatter.writeAttr a pre
      ++ TextFormatter.writeGroupList rest pre (i + 1)

/-- TextFormatter.writeAttr. -/
def TextFormatter.writeAttr : Attr → String → String
  | a, pre => a.1 ++ "=" ++ TextFormatter.writeValue a.2 (pre ++ a.1 ++ ".")

end

/-- Loop of TextFormatter.writeAttrs: empty keys are skipped; the group
path is written before each attribute. -/
def TextFormatter.attrsLoop : List Attr → String → String
  | [], _ => ""
  | a :: rest, pre =>
    (if a.1 = "" then "" else " " ++ pre ++ TextFormatter.writeAttr a pre)
      ++ TextFormatter.attrsLoop rest pre

/-- TextFormatter.writeAttrs: the accumulated groups become a dotted key
path applied to every attribute. -/
def TextFormatter.writeAttrs (attrs : List Attr) (groups : List String) : String :=
  TextFormatter.attrsLoop attrs (String.join (groups.map (fun g => g ++ ".")))

/-- TextFormatter.Format: the buffer writes of the source, in order. -/
def TextFormatter.Format (f : TextFormatter) (gt : GoTimeFormat) (r : Record) : String :=
  "time=" ++ formatTime gt (f.opts.Location r.Time) f.opts.TimeFormat
    ++ " level=" ++ LevelName r.Level
    ++ " msg=" ++ writeTextValue r.Message
    ++ (match r.Source with
        | some s => " source=" ++ FormatSource s f.opts
        | none => "")
    ++ TextFormatter.writeAttrs r.Attrs r.Groups
    ++ "\n"

/-- formatter.JSONFormatter. -/
structure JSONFormatter where
  opts : Options

mutual

/-- JSONFormatter.writeValue (level.go). -/
def JSONFormatter.writeValue : Value → String
  | .str s => writeJSONString s
  | .int i => toString i
  | .float d => d.render
  | .bool b => if b then "true" else "false"
  | .group attrs => "\x7b" ++ JSONFormatter.writeGroupList attrs 0 ++ "\x7d"

/-- Loop of the KindGroup arm of JSONFormatter.writeValue. -/
def JSONFormatter.writeGroupList : List Attr → Nat → String
  | [], _ => ""
  | a :: rest, i =>
    (if i > 0 then "," else "") ++ JSONFormatter.writeAttr a
      ++ JSONFormatter.writeGroupList rest (i + 1)

/-- JSONFormatter.writeAttr: the key is written raw (no escaping). -/
def JSONFormatter.writeAttr : Attr → String
  | a => "\"" ++ a.1 ++ "\":" ++ JSONFormatter.writeValue a.2

end

/-- Loop of JSONFormatter.writeAttrs: `first` starts true only when there
are no groups; an attribute inside a freshly opened group gets no comma. -/
def JSONFormatter.attrsLoop : List Attr → Bool → Bool → String
  | [], _, _ => ""
  | a :: rest, first, hasOpenGroups =>
    if a.1 = "" then JSONFormatter.attrsLoop rest first hasOpenGroups
    else
      (if !first then "," else if hasOpenGroups then "" else ",")
        ++ JSONFormatter.writeAttr a
        ++ JSONFormatter.attrsLoop rest false hasOpenGroups

/-- JSONFormatter.writeAttrs: groups open nested objects, attributes land
in the innermost one, then every group object is closed. -/
def JSONFormatter.writeAttrs (attrs : List Attr) (groups : List String) : String :=
  String.join (groups.map (fun g => ",\"" ++ g ++ "\":\x7b"))
    ++ JSONFormatter.attrsLoop attrs groups.isEmpty (!groups.isEmpty)
    ++ String.mk (List.replicate groups.length '\x7d')

/-- JSONFormatter.Format: the buffer writes of the source, in order. -/
def JSONFormatter.Format (f : JSONFormatter) (gt : GoTimeFormat) (r : Record) : String :=
  "\x7b\"time\":\"" ++ formatTime gt (f.opts.Location r.Time) f.opts.TimeFormat ++ "\""
    ++ ",\"level\":\"" ++ LevelName r.Level ++ "\""
    ++ ",\"msg\":" ++ writeJSONString r.Message
    ++ (match r.Source with
        | some s => ",\"source\":\"" ++ FormatSource s f.opts ++ "\""
        | none => "")
    ++ JSONFormatter.writeAttrs r.Attrs r.Groups
    ++ "\x7d\n"

/-- The value universe `encoding/json.Unmarshal` produces for a Go `any`
target: `nil` / `bool` / `float64` / `string` / `[]any` /
`map[string]any`.  Object fields keep their textual order (Go map
iteration order is unspecified; no claim depends on it). -/
inductive JValue where
  | null
  | bool (b : Bool)
  | num (d : Decimal)
  | str (s : String)
  | arr (xs : List JValue)
  | obj (fields : List (String × JValue))
  deriving Repr

/-- JSON whitespace. -/
def isJsonWs (c : Char) : Bool :=
  c = ' ' || c = '\t' || c = '\n' || c = '\r'

/-- Skip JSON whitespace. -/
def skipWs (l : List Char) : List Char :=
  l.dropWhile isJsonWs

/-- ASCII digit test. -/
def isDigitCh (c : Char) : Bool :=
  48 ≤ c.toNat && c.toNat ≤ 57

/-- Hex digit value. -/
def hexVal (c : Char) : Option Nat :=
  if 48 ≤ c.toNat ∧ c.toNat ≤ 57 then some (c.toNat - 48)
  else if 97 ≤ c.toNat ∧ c.toNat ≤ 102 then some (c.toNat - 87)
  else if 65 ≤ c.toNat ∧ c.toNat ≤ 70 then some (c.toNat - 55)
  else none

/-- JSON string literal body (after the opening quote): standard escapes,
raw control bytes rejected as Go's decoder rejects them. -/
def pString : Nat → List Char → List Char → Option (String × List Char)
  | 0, _, _ => none
  | _, [], _ => none
  | fuel + 1, c :: rest, acc =>
    if c = '"' then some (String.mk acc.reverse, rest)
    else if c = '\\' then
      match rest with
      | [] => none
      | e :: rest2 =>
        if e = '"' then pString fuel rest2 ('"' :: acc)
        else if e = '\\' then pString fuel rest2 ('\\' :: acc)
        else if e = '/' then pString fuel rest2 ('/' :: acc)
        else if e = 'n' then pString fuel rest2 ('\n' :: acc)
        else if e = 'r' then pString fuel rest2 ('\r' :: acc)
        else if e = 't' then pString fuel rest2 ('\t' :: acc)
        else if e = 'b' then pString fuel rest2 ('\x08' :: acc)
        else if e = 'f' then pString fuel rest2 ('\x0c' :: acc)
        else if e = 'u' then
          match rest2 with
          | h1 :: h2 :: h3 :: h4 :: rest3 =>
            match hexVal h1, hexVal h2, hexVal h3, hexVal h4 with
            | some a, some b, some c2, some d =>
              pString fuel rest3 (Char.ofNat (((a * 16 + b) * 16 + c2) * 16 + d) :: acc)
            | _, _, _, _ => none
          | _ => none
        else none
    else if c.toNat < 0x20 then none
    else pString fuel rest (c :: acc)

/-- Digits to a natural number. -/
def digitsToNat (ds : List Char) : Nat :=
  ds.foldl (fun acc c => acc * 10 + (c.toNat - 48)) 0

/-- JSON number: sign, integer digits, optional fraction, optional
exponent; the decoded `float64` is modelled as the exact decimal it
denotes (the claims use only decimally exact numbers). -/
def pNum (l : List Char) : Option (Decimal × List Char) :=
  let (neg, l1) := match l with
    | '-' :: r => (true, r)
    | _ => (false, l)
  let ds := l1.takeWhile isDigitCh
  let r1 := l1.dropWhile isDigitCh
  if ds.isEmpty then none
  else
    let step2 : Option (List Char × List Char) := match r1 with
      | '.' :: r =>
        let fs := r.takeWhile isDigitCh
        if fs.isEmpty then none else some (fs, r.dropWhile isDigitCh)
      | _ => some ([], r1)
    match step2 with
    | none => none
    | some (fs, r2) =>
      let step3 : Option (Int × List Char) := match r2 with
        | 'e' :: r => pExp r
        | 'E' :: r => pExp r
        | _ => some (0, r2)
      match step3 with
      | none => none
      | some (ex, r3) =>
        let mant0 : Nat := digitsToNat ds * 10 ^ fs.length + digitsToNat fs
        let mant1 : Int := if neg then -(mant0 : Int) else (mant0 : Int)
        let scaleI : Int := (fs.length : Int) - ex
        let d : Decimal :=
          if scaleI ≤ 0 then ⟨mant1 * 10 ^ (-scaleI).toNat, 0⟩
          else ⟨mant1, scaleI.toNat⟩
        some (d, r3)
where
  /-- Exponent part after `e`/`E`. -/
  pExp (r : List Char) : Option (Int × List Char) :=
    let (eneg, r1) := match r with
      | '-' :: rr => (true, rr)
      | '+' :: rr => (false, rr)
      | _ => (false, r)
    let es := r1.takeWhile isDigitCh
    if es.isEmpty then none
    else
      let ev : Int := if eneg then -(digitsToNat es : Int) else (digitsToNat es : Int)
      some (ev, r1.dropWhile isDigitCh)

/-- Literal keyword. -/
def pLit (pat : List Char) (l : List Char) : Option (List Char) :=
  if pat.isPrefixOf l then some (l.drop pat.length) else none

mutual

/-- One JSON value (models `encoding/json.Unmarshal` into `any`). -/
def pJValue : Nat → List Char → Option (JValue × List Char)
  | 0, _ => none
  | fuel + 1, l =>
    match skipWs l with
    | [] => none
    | c :: rest =>
      if c = '"' then
        match pString (rest.length + 1) rest [] with
        | some (s, r) => some (.str s, r)
        | none => none
      else if c = '{' then pObjFields fuel rest true []
      else if c = '[' then pArrItems fuel rest true []
      else if c = 't' then
        match pLit ['r', 'u', 'e'] rest with
        | some r => some (.bool true, r)
        | none => none
      else if c = 'f' then
        match pLit ['a', 'l', 's', 'e'] rest with
        | some r => some (.bool false, r)
        | none => none
      else if c = 'n' then
        match pLit ['u', 'l', 'l'] rest with
        | some r => some (.null, r)
        | none => none
      else if c = '-' || isDigitCh c then
        match pNum (c :: rest) with
        | some (d, r) => some (.num d, r)
        | none => none
      else none

/-- Object members, entered just after `\x7b` (first = true) or after a
comma (first = false). -/
def pObjFields : Nat → List Char → Bool → List (String × JValue) →
    Option (JValue × List Char)
  | 0, _, _, _ => none
  | fuel + 1, l, first, acc =>
    match skipWs l with
    | [] => none
    | c :: rest =>
      if first ∧ c = '}' then some (.obj acc.reverse, rest)
      else if c = '"' then
        match pString (rest.length + 1) rest [] with
        | none => none
        | some (k, r1) =>
          match skipWs r1 with
          | ':' :: r2 =>
            match pJValue fuel r2 with
            | none => none
            | some (v, r3) =>
              match skipWs r3 with
              | ',' :: r4 => pObjFields fuel r4 false ((k, v) :: acc)
              | '}' :: r4 => some (.obj ((k, v) :: acc).reverse, r4)
              | _ => none
          | _ => none
      else none

/-- Array items, entered just after `[` (first = true) or after a comma. -/
def pArrItems : Nat → List Char → Bool → List JValue →
    Option (JValue × List Char)
  | 0, _, _, _ => none
  | fuel + 1, l, first, acc =>
    match skipWs l with
    | [] => none
    | c :: rest =>
      if first ∧ c = ']' then some (.arr acc.reverse, rest)
      else
        match pJValue fuel (c :: rest) with
        | none => none
        | some (v, r1) =>
          match skipWs r1 with
          | ',' :: r2 => pArrItems fuel r2 false (v :: acc)
          | ']' :: r2 => some (.arr (v :: acc).reverse, r2)
          | _ => none

end

/-- Top level of `encoding/json.Unmarshal(s, &any)`: one value plus only trailing
whitespace. -/
def jsonUnmarshal (s : String) : Option JValue :=
  match pJValue (s.data.length + 2) s.data with
  | some (v, rest) => if (skipWs rest).isEmpty then some v else none
  | none => none

example : jsonUnmarshal "\x7b\"user\":\"alice\",\"age\":30\x7d"
    = some (.obj [("user", .str "alice"), ("age", .num ⟨30, 0⟩)]) := rfl
example : jsonUnmarshal "[\"go\",\"rust\"]"
    = some (.arr [.str "go", .str "rust"]) := rfl

/-- ColorTextFormatter.coloredKV (part_002). -/
def coloredKV (enableColor : Bool) (key value : String) : String :=
  if enableColor then
    colorCyan ++ key ++ colorReset ++ "=" ++ colorGreen ++ value ++ colorReset
  else key ++ "=" ++ value

mutual

/-- ColorTextFormatter.flattenValue: recursively expand a decoded JSON
value into `path=value` parts.  The decoder only produces the six arms
below, so the source's `default` arm (re-marshal) is unreachable here.
Maps recurse with `path.key`, arrays with `path[idx]`; scalars emit one
terminal part. -/
def flattenValue (ec : Bool) : JValue → String → List String
  | .obj fields, path => flattenObj ec fields path
  | .arr xs, path => flattenArr ec xs path 0
  | .str s, path => [coloredKV ec path (goQuote s)]
  | .num d, path => [coloredKV ec path d.render]
  | .bool b, path => [coloredKV ec path (if b then "true" else "false")]
  | .null, path => [coloredKV ec path "null"]

/-- Map arm of flattenValue. -/
def flattenObj (ec : Bool) : List (String × JValue) → String → List String
  | [], _ => []
  | (k, v) :: rest, path =>
    flattenValue ec v (path ++ "." ++ k) ++ flattenObj ec rest path

/-- Array arm of flattenValue. -/
def flattenArr (ec : Bool) : List JValue → String → Nat → List String
  | [], _, _ => []
  | v :: rest, path, i =>
    flattenValue ec v (path ++ "[" ++ toString i ++ "]")
      ++ flattenArr ec rest path (i + 1)

end

/-- ColorTextFormatter.tryFlattenJSON: parse, flatten, join with spaces;
empty string signals failure to the caller. -/
def tryFlattenJSON (ec : Bool) (s keyPath : String) : String :=
  match jsonUnmarshal s with
  | none => ""
  | some v => String.intercalate " " (flattenValue ec v keyPath)

/-- formatter.ColorTextFormatter (part_002): the variant with an
`enableColor` field; `priorityKeys`/`trailingKeys` are carried but unused
by its Format path, as in the source. -/
structure ColorTextFormatter where
  opts : Options
  enableColor : Bool
  flattenJSON : Bool
  priorityKeys : List String
  trailingKeys : List String

/-- formatter.ColorText constructor defaults. -/
def ColorText (opts : Options) : ColorTextFormatter :=
  { opts := opts, enableColor := true, flattenJSON := true,
    priorityKeys := ["time", "level", "msg"], trailingKeys := ["source"] }

/-- ColorTextFormatter.writeColored. -/
def ColorTextFormatter.writeColored (f : ColorTextFormatter) (color text : String) : String :=
  if f.enableColor then color ++ text ++ colorReset else text

/-- ColorTextFormatter.writeLevel. -/
def ColorTextFormatter.writeLevel (f : ColorTextFormatter) (level : Level) : String :=
  let ct : String × String :=
    if level < LevelInfo then (colorCyan, "DEBUG")
    else if level < LevelWarn then (colorGreen, "INFO")
    else if level < LevelError then (colorYellow, "WARN")
    else (colorRed, "ERROR")
  if f.enableColor then ct.1 ++ colorBold ++ ct.2 ++ colorReset else ct.2

mutual

/-- ColorTextFormatter.writeValue (part_002): strings that look like JSON
are flattened when that succeeds; groups are expanded inline under
`keyPath.`; scalars are colored by role. -/
def ColorTextFormatter.writeValue (f : ColorTextFormatter) : Value → String → String
  | .str s, keyPath =>
    if f.flattenJSON ∧ s.data ≠ []
        ∧ (s.data.head? = some '{' ∨ s.data.head? = some '[') then
      let expanded := tryFlattenJSON f.enableColor s keyPath
      if expanded ≠ "" then expanded
      else f.writeColored colorGreen (goQuote s)
    else f.writeColored colorGreen (goQuote s)
  | .int i, _ => f.writeColored colorYellow (toString i)
  | .float d, _ => f.writeColored colorYellow d.render
  | .bool b, _ => f.writeColored colorYellow (if b then "true" else "false")
  | .group attrs, keyPath => ColorTextFormatter.writeGroupList f attrs keyPath 0

/-- KindGroup arm of ColorTextFormatter.writeValue. -/
def ColorTextFormatter.writeGroupList (f : ColorTextFormatter) :
    List Attr → String → Nat → String
  | [], _, _ => ""
  | a :: rest, keyPath, i =>
    (if i > 0 then " " else "")
      ++ ColorTextFormatter.writeAttr f a (keyPath ++ ".")
      ++ ColorTextFormatter.writeGroupList f rest keyPath (i + 1)

/-- ColorTextFormatter.writeAttr. -/
def ColorTextFormatter.writeAttr (f : ColorTextFormatter) : Attr → String → String
  | a, pre =>
    let key := pre ++ a.1
    f.writeColored colorCyan key ++ "=" ++ ColorTextFormatter.writeValue f a.2 key

end

/-- Loop of ColorTextFormatter.writeAttrs: empty keys skipped. -/
def ColorTextFormatter.attrsLoop (f : ColorTextFormatter) : List Attr → String → String
  | [], _ => ""
  | a :: rest, pre =>
    (if a.1 = "" then "" else " " ++ ColorTextFormatter.writeAttr f a pre)
      ++ ColorTextFormatter.attrsLoop f rest pre

/-- ColorTextFormatter.writeAttrs: the full accumulated group list becomes
one dotted path applied to every attribute of the record. -/
def ColorTextFormatter.writeAttrs (f : ColorTextFormatter)
    (attrs : List Attr) (groups : List String) : String :=
  ColorTextFormatter.attrsLoop f attrs (String.join (groups.map (fun g => g ++ ".")))

/-- ColorTextFormatter.Format (part_002): the buffer writes, in order. -/
def ColorTextFormatter.Format (f : ColorTextFormatter) (gt : GoTimeFormat)
    (r : Record) : String :=
  f.writeColored colorGray (formatTime gt (f.opts.Location r.Time) f.opts.TimeFormat)
    ++ " " ++ f.writeLevel r.Level
    ++ " " ++ f.writeColored colorBlue r.Message
    ++ f.writeAttrs r.Attrs r.Groups
    ++ (match r.Source with
        | some s => " " ++ f.writeColored colorPurple (FormatSource s f.opts)
        | none => "")
    ++ "\n"

/-- logm.Interceptor: `func(ctx, *Record) *Record`, nil meaning drop.  The
context is only passed through, so it is elided. -/
abbrev Interceptor := Record → Option Record

/-- The logm.Formatter plugin interface: `Format(r) -> (bytes, error)`. -/
abbrev FormatterFn := Record → Except String String

/-- A logm.Writer's `Write`, reduced to its success bit: the handler only
looks at whether the returned error is nil, and the delivered bytes are
tracked in the handle trace. -/
abbrev WriterFn := String → Bool

/-- Observable actions of one `Handler.Handle` call: Formatter invocations
and attempted writes (writer index in registration order, bytes). -/
inductive Event where
  | fmtCall (r : Record)
  | writeCall (i : Nat) (data : String)

/-- logm.Handler (handler.go).  `levelVar` is the current value of the
shared `slog.LevelVar`. -/
structure Handler where
  levelVar : Level
  formatter : Option FormatterFn
  writers : List WriterFn
  interceptors : List Interceptor
  addSource : Bool
  timeFormat : String
  location : Location
  groups : List String
  attrs : List Attr

/-- Handler.Enabled: `level >= h.levelVar.Level()`. -/
def Handler.Enabled (h : Handler) (level : Level) : Bool :=
  h.levelVar ≤ level

/-- Handler.clone: a fresh snapshot with copied group and attribute
slices — on immutable lists the copies are the lists themselves. -/
def Handler.clone (h : Handler) : Handler :=
  { h with groups := h.groups, attrs := h.attrs }

/-- Handler.WithAttrs: no-op on an empty list, else clone-and-append. -/
def Handler.WithAttrs (h : Handler) (attrs : List Attr) : Handler :=
  if attrs.isEmpty then h
  else { h.clone with attrs := h.attrs ++ attrs }

/-- Handler.WithGroup: no-op on the empty name, else clone-and-append. -/
def Handler.WithGroup (h : Handler) (name : String) : Handler :=
  if name = "" then h
  else { h.clone with groups := h.groups ++ [name] }

/-- The slog record handed to `Handle`: time, level, message, its own
attributes, and the caller program counter (0 = none).  `pcSource` below
stands for `runtime.CallersFrames` (standard library). -/
structure SlogRecord where
  time : Time
  level : Level
  message : String
  attrs : List Attr
  pc : Nat

/-- Handler.toRecord: location-adjust the time, prepend the inherited
attributes to the record's own, attach the accumulated groups, and
resolve the source location when enabled and a pc was supplied. -/
def Handler.toRecord (h : Handler) (pcSource : Nat → Source) (r : SlogRecord) : Record :=
  { Time := h.location r.time
    Level := r.level
    Message := r.message
    Groups := h.groups
    Attrs := h.attrs ++ r.attrs
    Source := if h.addSource ∧ r.pc ≠ 0 then some (pcSource r.pc) else none }

/-- The interceptor loop of Handler.Handle: apply in registration order,
stopping at the first nil. -/
def runInterceptors : List Interceptor → Record → Option Record
  | [], r => some r
  | i :: rest, r =>
    match i r with
    | none => none
    | some r2 => runInterceptors rest r2

/-- The writer fan-out loop of Handler.Handle: attempt every writer in
order; a write error only makes the loop `continue` with the next
writer, so the attempt sequence does not depend on the results. -/
def writeLoop : List WriterFn → Nat → String → List Event
  | [], _, _ => []
  | w :: rest, i, data =>
    if w data then Event.writeCall i data :: writeLoop rest (i + 1) data
    else -- 写入失败继续尝试其他 writer (continue)
      Event.writeCall i data :: writeLoop rest (i + 1) data

/-- Handler.Handle: convert, intercept (nil drops the record and returns
success), format (nil formatter: success, no output; error: propagate,
write nothing), then fan out to every writer.  Returns the error result
together with the trace of Formatter invocations and attempted writes. -/
def Handler.Handle (h : Handler) (pcSource : Nat → Source) (r : SlogRecord) :
    Except String Unit × List Event :=
  let rec0 := h.toRecord pcSource r
  match runInterceptors h.interceptors rec0 with
  | none => (Except.ok (), [])
  | some rec1 =>
    match h.formatter with
    | none => (Except.ok (), [])
    | some fmt =>
      match fmt rec1 with
      | Except.error e => (Except.error e, [Event.fmtCall rec1])
      | Except.ok data => (Except.ok (), Event.fmtCall rec1 :: writeLoop h.writers 0 data)

/-- Modelled from the spec: the host logging facade (log/slog, outside
this repository) performs the level-gate pre-check — "caller →
Handler.Enabled (level gate) → Handler.Handle(record)" (§2) — calling
`Handle` only when `Enabled` returns true. -/
def logThrough (h : Handler) (pcSource : Nat → Source) (r : SlogRecord) :
    Except String Unit × List Event :=
  if h.Enabled r.level then h.Handle pcSource r else (Except.ok (), [])

/-- writer.AsyncWriter (async.go), sequential state: the bounded queue,
the closed flag, and the byte buffers the inner writer has received.  The
background drain goroutine writes queued buffers to the inner writer in
FIFO order; `Close` waits for it to finish, so in the sequential model the
whole drain happens at `Close`. -/
structure AsyncWriter where
  capacity : Nat
  queue : List String
  closed : Bool
  inner : List String

/-- writer.Async: bufferSize ≤ 0 falls back to 1000; queue empty, open. -/
def Async (bufferSize : Int) : AsyncWriter :=
  { capacity := if bufferSize ≤ 0 then 1000 else bufferSize.toNat
    queue := [], closed := false, inner := [] }

/-- AsyncWriter.Write: after Close report success with n = 0 and touch
nothing; otherwise copy the buffer and try a non-blocking enqueue — a
full queue silently drops the data, still reporting `(len(p), nil)`.  The
error result is always nil, hence elided: the result is (state, n). -/
def AsyncWriter.Write (a : AsyncWriter) (p : String) : AsyncWriter × Nat :=
  if a.closed then (a, 0)
  else if a.queue.length < a.capacity then
    ({ a with queue := a.queue ++ [p] }, p.length)
  else (a, p.length)

/-- AsyncWriter.Close: idempotent; on the first call mark closed, close
the channel and wait for the drain goroutine, which hands every queued
buffer to the inner writer in order. -/
def AsyncWriter.Close (a : AsyncWriter) : AsyncWriter :=
  if a.closed then a
  else { a with closed := true, queue := [], inner := a.inner ++ a.queue }

/-- State of the top-level-key scanner for one JSON line: nesting depth,
string-literal tracking (with escape lookahead), whether the current /
next string literal is an object key of the top-level object, the key
being collected, and the keys seen so far. -/
structure ScanSt where
  depth : Nat
  inStr : Bool
  esc : Bool
  isKey : Bool
  expectKey : Bool
  cur : List Char
  keys : List String

/-- One character of the top-level-key scanner. -/
def scanStep (st : ScanSt) (c : Char) : ScanSt :=
  if st.inStr then
    if st.esc then
      { st with esc := false, cur := if st.isKey then c :: st.cur else st.cur }
    else if c = '\\' then { st with esc := true }
    else if c = '"' then
      if st.isKey then
        { st with inStr := false, isKey := false, expectKey := false,
                  keys := st.keys ++ [String.mk st.cur.reverse], cur := [] }
      else { st with inStr := false }
    else { st with cur := if st.isKey then c :: st.cur else st.cur }
  else
    if c = '"' then
      { st with inStr := true, isKey := st.depth = 1 ∧ st.expectKey, cur := [] }
    else if c = '{' ∨ c = '[' then
      { st with depth := st.depth + 1, expectKey := st.depth = 0 ∧ c = '{' }
    else if c = '}' ∨ c = ']' then { st with depth := st.depth - 1 }
    else if c = ',' then { st with expectKey := st.depth = 1 }
    else if c = ':' then { st with expectKey := false }
    else st

/-- Initial scanner state. -/
def scanInit : ScanSt :=
  { depth := 0, inStr := false, esc := false, isKey := false,
    expectKey := false, cur := [], keys := [] }

/-- Run the scanner over a character list. -/
def scanList (l : List Char) (st : ScanSt) : ScanSt :=
  l.foldl scanStep st

/-- The keys of the top-level JSON object of a line, in textual order. -/
def jsonTopKeys (s : String) : List String :=
  (scanList s.data scanInit).keys

example : jsonTopKeys "\x7b\"a\":\"v\",\"b\":1\x7d" = ["a", "b"] := rfl
example : jsonTopKeys "\x7b\"a\":\x7b\"in\":2\x7d,\"b\":[\"x\"]\x7d" = ["a", "b"] := rfl

/-- The fan-out loop attempts every writer, in registration order,
whatever each writer's result is. -/
theorem writeLoop_eq_range (ws : List WriterFn) (i : Nat) (data : String) :
    writeLoop ws i data
      = (List.range ws.length).map (fun j => Event.writeCall (i + j) data) := by
  induction ws generalizing i with
  | nil => simp [writeLoop]
  | cons w rest ih =>
    have hadd : ∀ j : Nat, i + 1 + j = i + (j + 1) := by omega
    simp [writeLoop, ih, List.range_succ_eq_map, List.map_map, Function.comp, hadd]

/-- A pc-to-source resolver used by the concrete scenarios. -/
def noSource : Nat → Source := fun _ => { Function := "", File := "", Line := 0 }

/-- Identity location (a fixed zero offset). -/
def locId : Location := fun t => t

/-- A layout engine rendering every instant as its number. -/
def gtNum : GoTimeFormat := fun t _ => toString t

/-- A Text formatter over the default options. -/
def textFmtDefault : TextFormatter := { opts := defaultOptions locId }

/-- Handler of the level-gate scenario: threshold WARN, Text formatter,
one always-succeeding writer. -/
def c2Handler : Handler :=
  { levelVar := LevelWarn
    formatter := some (fun r => Except.ok (textFmtDefault.Format gtNum r))
    writers := [fun _ => true]
    interceptors := []
    addSource := false
    timeFormat := "datetime"
    location := locId
    groups := []
    attrs := [] }

/-- An INFO record while the threshold is WARN. -/
def c2Record : SlogRecord :=
  { time := 0, level := LevelInfo, message := "info", attrs := [], pc := 0 }

/-- C2: the claim says a `Handle` call with a record below the threshold
"does not invoke the Formatter and does not write to any Writer".
`Handler.Handle` itself performs no level check: invoked directly with an
INFO record while the threshold is WARN (`Enabled(INFO)` = false), it
still calls the Formatter and writes the formatted line to the writer. -/
theorem c2_level_gate_counterexample :
    LevelInfo < LevelWarn
      ∧ c2Handler.levelVar = LevelWarn
      ∧ c2Handler.Enabled LevelInfo = false
      ∧ (c2Handler.Handle noSource c2Record).2
          = [Event.fmtCall (c2Handler.toRecord noSource c2Record),
             Event.writeCall 0 "time=0 level=INFO msg=info\n"] :=
  ⟨by decide, rfl, by decide, rfl⟩

/-- C2 (amended): for L1 < L2 with the threshold at L2, `Enabled(L1)` is
false, and the level gate lives in the host slog facade, which calls
`Handle` only after `Enabled` returns true — so a record at a disabled
level produces no Formatter invocation and no write through the logging
pipeline.  `Handle` itself does not re-check the level (see the
counterexample). -/
theorem c2_level_gate_amended :
    (∀ (L1 L2 : Level) (h : Handler),
        L1 < L2 → h.levelVar = L2 → h.Enabled L1 = false)
    ∧ (∀ (h : Handler) (pc : Nat → Source) (r : SlogRecord),
        h.Enabled r.level = false →
        logThrough h pc r = (Except.ok (), [])) := by
  constructor
  · intro L1 L2 h hlt hvar
    simp only [Handler.Enabled, hvar, decide_eq_false_iff_not, not_le]
    exact hlt
  · intro h pc r hen
    simp [logThrough, hen]

/-- Witness for C2 (amended) at the WARN-threshold handler and the INFO
record. -/
theorem c2_level_gate_amended_witness :
    c2Handler.Enabled LevelInfo = false
      ∧ logThrough c2Handler noSource c2Record = (Except.ok (), []) :=
  ⟨c2_level_gate_amended.1 LevelInfo LevelWarn c2Handler (by decide) rfl,
   c2_level_gate_amended.2 c2Handler noSource c2Record
     (c2_level_gate_amended.1 LevelInfo LevelWarn c2Handler (by decide) rfl)⟩

/-- C4: when the interceptors pass the record on and a Formatter is set:
a Format error is returned by Handle and nothing is written to any
writer; on Format success the bytes are handed to every registered
writer, in registration order, and — whatever each writer's Write result
is (the trace formula does not mention the writer functions) — every
remaining writer is still attempted and Handle returns nil. -/
theorem c4_format_error_and_fanout (h : Handler) (pc : Nat → Source)
    (r : SlogRecord) (fmt : FormatterFn) (rec1 : Record)
    (hf : h.formatter = some fmt)
    (hi : runInterceptors h.interceptors (h.toRecord pc r) = some rec1) :
    (∀ e, fmt rec1 = Except.error e →
        h.Handle pc r = (Except.error e, [Event.fmtCall rec1]))
    ∧ (∀ data, fmt rec1 = Except.ok data →
        h.Handle pc r = (Except.ok (),
          Event.fmtCall rec1 ::
            (List.range h.writers.length).map (fun i => Event.writeCall i data))) := by
  constructor
  · intro e he
    simp only [Handler.Handle, hi, hf, he]
  · intro data hd
    simp only [Handler.Handle, hi, hf, hd, writeLoop_eq_range]
    simp

/-- Handler of the fan-out scenario: two writers, the first broken. -/
def c4Handler : Handler :=
  { c2Handler with
    levelVar := LevelInfo
    writers := [fun _ => false, fun _ => true] }

/-- Witness for C4: Format succeeds, the first writer fails, and still
both writers receive the bytes and Handle returns nil. -/
theorem c4_format_error_and_fanout_witness :
    c4Handler.Handle noSource c2Record
      = (Except.ok (),
         [Event.fmtCall (c4Handler.toRecord noSource c2Record),
          Event.writeCall 0 "time=0 level=INFO msg=info\n",
          Event.writeCall 1 "time=0 level=INFO msg=info\n"]) :=
  (c4_format_error_and_fanout c4Handler noSource c2Record
      (fun r => Except.ok (textFmtDefault.Format gtNum r))
      (c4Handler.toRecord noSource c2Record) rfl rfl).2
    "time=0 level=INFO msg=info\n" rfl

/-- C10: with a nil Formatter, Handle succeeds and attempts no write,
whether or not the interceptors drop the record. -/
theorem c10_nil_formatter (h : Handler) (pc : Nat → Source) (r : SlogRecord)
    (rec1 : Record)
    (hf : h.formatter = none)
    (hi : runInterceptors h.interceptors (h.toRecord pc r) = some rec1) :
    h.Handle pc r = (Except.ok (), []) := by
  simp only [Handler.Handle, hi, hf]

/-- Handler with a nil Formatter. -/
def c10Handler : Handler :=
  { c2Handler with levelVar := LevelInfo, formatter := none }

/-- Witness for C10. -/
theorem c10_nil_formatter_witness :
    c10Handler.Handle noSource c2Record = (Except.ok (), []) :=
  c10_nil_formatter c10Handler noSource c2Record
    (c10Handler.toRecord noSource c2Record) rfl rfl

/-- Chaining two WithAttrs calls equals one call on the concatenation. -/
theorem withAttrs_append (h : Handler) (a b : List Attr) :
    (h.WithAttrs a).WithAttrs b = h.WithAttrs (a ++ b) := by
  by_cases ha : a.isEmpty
  · have ha' := List.isEmpty_iff.mp ha
    subst ha'
    simp [Handler.WithAttrs]
  · by_cases hb : b.isEmpty
    · have hb' := List.isEmpty_iff.mp hb
      subst hb'
      rw [List.append_nil]
      simp [Handler.WithAttrs]
    · have hab : ¬ (a ++ b).isEmpty = true := by
        simp only [List.isEmpty_iff, List.append_eq_nil] at ha ⊢
        tauto
      simp only [Handler.WithAttrs, Handler.clone, if_neg ha, if_neg hb, if_neg hab]
      simp [List.append_assoc]

/-- C9: `WithAttrs([])` and `WithGroup("")` return the receiver snapshot
unchanged, and chaining `WithAttrs(a)` then `WithAttrs(b)` yields exactly
the snapshot of `WithAttrs(a ++ b)` — hence identical records and
identical rendering for every subsequent Handle call. -/
theorem c9_with_algebra :
    (∀ h : Handler, h.WithAttrs [] = h)
    ∧ (∀ h : Handler, h.WithGroup "" = h)
    ∧ (∀ (h : Handler) (a b : List Attr),
        (h.WithAttrs a).WithAttrs b = h.WithAttrs (a ++ b))
    ∧ (∀ (h : Handler) (a b : List Attr) (pc : Nat → Source) (r : SlogRecord),
        ((h.WithAttrs a).WithAttrs b).toRecord pc r
          = (h.WithAttrs (a ++ b)).toRecord pc r) := by
  refine ⟨fun h => rfl, fun h => rfl, fun h a b => withAttrs_append h a b,
    fun h a b pc r => ?_⟩
  rw [withAttrs_append]

/-- Write a sequence of buffers to an async writer, in order. -/
def writeAllAsync : AsyncWriter → List String → AsyncWriter
  | a, [] => a
  | a, p :: rest => writeAllAsync (a.Write p).1 rest

/-- While open and under capacity, writes enqueue in FIFO order and the
inner writer is untouched. -/
theorem writeAllAsync_open (cap : Nat) (inner0 : List String) :
    ∀ (bufs q : List String), q.length + bufs.length ≤ cap →
      writeAllAsync ⟨cap, q, false, inner0⟩ bufs = ⟨cap, q ++ bufs, false, inner0⟩ := by
  intro bufs
  induction bufs with
  | nil => intro q h; simp [writeAllAsync]
  | cons p rest ih =>
    intro q h
    have hq : q.length < cap := by
      simp only [List.length_cons] at h
      omega
    have step : (AsyncWriter.Write ⟨cap, q, false, inner0⟩ p).1
        = ⟨cap, q ++ [p], false, inner0⟩ := by
      simp [AsyncWriter.Write, hq]
    rw [writeAllAsync, step]
    have h2 : (q ++ [p]).length + rest.length ≤ cap := by
      simp only [List.length_append, List.length_cons] at h ⊢
      simp only [List.length_nil]
      omega
    rw [ih (q ++ [p]) h2, List.append_assoc]
    rfl

/-- C6: writing N buffers (at most the capacity) and then closing hands
the inner writer exactly those buffers, in order, with no loss and no
duplication; any Write after Close reports success with n = 0 and
leaves the writer — inner sink included — untouched. -/
theorem c6_async_close_no_loss (bufs : List String) (bufferSize : Int)
    (hcap : bufs.length ≤ (Async bufferSize).capacity) :
    ((writeAllAsync (Async bufferSize) bufs).Close).inner = bufs
    ∧ ∀ p, ((writeAllAsync (Async bufferSize) bufs).Close).Write p
        = ((writeAllAsync (Async bufferSize) bufs).Close, 0) := by
  have hrun : writeAllAsync (Async bufferSize) bufs
      = ⟨(Async bufferSize).capacity, bufs, false, []⟩ := by
    have := writeAllAsync_open (Async bufferSize).capacity [] bufs []
      (by simpa using hcap)
    simpa [Async] using this
  have hclose : (writeAllAsync (Async bufferSize) bufs).Close
      = ⟨(Async bufferSize).capacity, [], true, bufs⟩ := by
    rw [hrun]
    simp [AsyncWriter.Close]
  refine ⟨by rw [hclose], fun p => ?_⟩
  rw [hclose]
  simp [AsyncWriter.Write]

/-- Witness for C6 at two buffers and capacity 2. -/
theorem c6_async_close_no_loss_witness :
    ((writeAllAsync (Async 2) ["a", "b"]).Close).inner = ["a", "b"]
    ∧ ((writeAllAsync (Async 2) ["a", "b"]).Close).Write "late"
        = ((writeAllAsync (Async 2) ["a", "b"]).Close, 0) :=
  ⟨(c6_async_close_no_loss ["a", "b"] 2 (by decide)).1,
   (c6_async_close_no_loss ["a", "b"] 2 (by decide)).2 "late"⟩

/-- A ColorText formatter with color disabled (`WithColor(false)`), which
keeps the rendered fields free of ANSI noise. -/
def noColorCT : ColorTextFormatter :=
  { ColorText (defaultOptions locId) with enableColor := false }

/-- Root handler of the nested-group scenario: ColorText formatter, one
writer. -/
def c1Base : Handler :=
  { levelVar := LevelDebug
    formatter := some (fun r => Except.ok (noColorCT.Format gtNum r))
    writers := [fun _ => true]
    interceptors := []
    addSource := false
    timeFormat := "datetime"
    location := locId
    groups := []
    attrs := [] }

/-- Chain `WithGroup("http")`, then `WithAttrs(version=1.1)`, then
`WithGroup("request")`. -/
def c1Handler : Handler :=
  ((c1Base.WithGroup "http").WithAttrs
      [("version", Value.float ⟨11, 1⟩)]).WithGroup "request"

/-- The Handle call logging `method=GET`. -/
def c1Record : SlogRecord :=
  { time := 0, level := LevelInfo, message := "request done",
    attrs := [("method", Value.str "GET")], pc := 0 }

/-- The line the scenario writes. -/
def c1Out : String :=
  noColorCT.Format gtNum (c1Handler.toRecord noSource c1Record)

example : c1Out
    = "0 INFO request done http.request.version=1.1 http.request.method=\"GET\"\n" := rfl

/-- C1: the claim says the pre-bound attribute renders under the group
path active when it was bound (`http.version = 1.1`).  It does not: the
handler keeps one flat group list and one flat attribute list, and the
formatter applies the full accumulated path to every attribute, so the
written line contains `http.request.version=1.1` and nothing matching
`http.version=1.1`. -/
theorem c1_nested_groups_counterexample :
    (c1Handler.Handle noSource c1Record).2
        = [Event.fmtCall (c1Handler.toRecord noSource c1Record),
           Event.writeCall 0 c1Out]
      ∧ ¬ ("http.version=1.1".data <:+: c1Out.data)
      ∧ "http.request.version=1.1".data <:+: c1Out.data :=
  ⟨rfl, by decide, by decide⟩

/-- C1 (amended): every attribute — pre-bound by `WithAttrs` at any
point, or carried by the record — renders under the **full** accumulated
group path: the line contains `http.request.version=1.1` and
`http.request.method="GET"`, not `http.version=1.1`. -/
theorem c1_nested_groups_amended :
    c1Out
      = "0 INFO request done http.request.version=1.1 http.request.method=\"GET\"\n"
      ∧ "http.request.version=1.1".data <:+: c1Out.data
      ∧ "http.request.method=\"GET\"".data <:+: c1Out.data :=
  ⟨rfl, by decide, by decide⟩

/-- C5: flattening the JSON-object text under key `body` yields exactly
the two terminal fields `body.user="alice"` and `body.age=30` (the
integer renders with no decimal point), and flattening the array text
under `tags` yields `tags[0]="go"` and `tags[1]="rust"`.  Object fields
are emitted here in textual order; Go iterates its map in unspecified
order, and the claim fixes no order. -/
theorem c5_flatten_roundtrip :
    ColorTextFormatter.writeValue noColorCT
        (Value.str "\x7b\"user\":\"alice\",\"age\":30\x7d") "body"
      = "body.user=\"alice\" body.age=30"
    ∧ ColorTextFormatter.writeValue noColorCT
        (Value.str "[\"go\",\"rust\"]") "tags"
      = "tags[0]=\"go\" tags[1]=\"rust\"" :=
  ⟨rfl, rfl⟩

/-- If a character list holds fewer slashes than the wanted depth, the
clip loop never fires. -/
theorem clipToDepthGo_none (l : List Char) :
    ∀ (d : Nat) (acc : List Char), l.count '/' < d → clipToDepthGo l d acc = none := by
  induction l with
  | nil => intro d acc _; rfl
  | cons c rest ih =>
    intro d acc h
    rw [List.count_cons] at h
    by_cases hc : c = '/'
    · have hd : d ≠ 1 := by
        simp [hc] at h
        omega
      rw [clipToDepthGo, if_pos hc, if_neg hd]
      exact ih (d - 1) ('/' :: acc) (by simp [hc] at h; omega)
    · rw [clipToDepthGo, if_neg hc]
      exact ih d (c :: acc) (by simp [hc] at h; omega)

/-- C7: prefix clipping drops `/workspace/` and the project directory;
default depth-3 clipping keeps the last three levels of an absolute
path; and with no clip configured, any path holding fewer separators
than the requested depth comes back unchanged. -/
theorem c7_path_clipping :
    clipPath "/workspace/myproject/pkg/main.go"
        { TimeFormat := "", Location := locId,
          SourceClip := "/workspace/", SourceDepth := 0 } = "pkg/main.go"
    ∧ clipPath "/a/b/c/d.go"
        { TimeFormat := "", Location := locId,
          SourceClip := "", SourceDepth := 0 } = "b/c/d.go"
    ∧ (∀ (path : String) (opts : Options), opts.SourceClip = "" →
        (path.data.count '/' : Int)
            < (if opts.SourceDepth ≤ 0 then 3 else opts.SourceDepth) →
        clipPath path opts = path) := by
  refine ⟨by decide, by decide, fun path opts hclip hdepth => ?_⟩
  set targetDepth : Int := if opts.SourceDepth ≤ 0 then 3 else opts.SourceDepth with htd
  have htdpos : 0 < targetDepth := by
    rw [htd]
    split <;> omega
  have hclipto : clipToDepth path targetDepth = path := by
    rw [clipToDepth, if_neg (by omega)]
    rw [clipToDepthGo_none path.data.reverse targetDepth.toNat []
      (by rw [List.count_reverse]; omega)]
  have main : clipPath path opts
      = if path.length > 0 ∧ path.data.head? = some '/' then
          clipToDepth path (if opts.SourceDepth ≤ 0 then 3 else opts.SourceDepth)
        else path := by
    simp [clipPath, hclip]
  rw [main, ← htd]
  split
  · exact hclipto
  · rfl

/-- Witness for C7's unchanged-path conjunct at `/a/b.go`, two separators
against depth 3. -/
theorem c7_path_clipping_witness :
    clipPath "/a/b.go"
        { TimeFormat := "", Location := locId,
          SourceClip := "", SourceDepth := 0 } = "/a/b.go" :=
  c7_path_clipping.2.2 "/a/b.go"
    { TimeFormat := "", Location := locId, SourceClip := "", SourceDepth := 0 }
    rfl (by decide)

/-- C8: the claim says every control byte below 0x20 other than
newline/CR/tab is escaped as `\u00XX` in Text output.  It is not: the
Text value writer quotes on space/quote/equals/newline/CR/tab only and
escapes only those five characters; the 0x01 byte below is written
through unchanged, and no `\u0001` appears. -/
theorem c8_text_escape_counterexample :
    writeTextValue "a\x01 b" = "\"a\x01 b\""
      ∧ ¬ ("\\u0001".data <:+: (writeTextValue "a\x01 b").data) :=
  ⟨rfl, by decide⟩

/-- C8 (amended): a Text value containing a space, double quote, equals
sign, newline, carriage return or tab is double-quoted; inside the
quotes exactly `"`, `\`, newline, CR and tab are escaped C-style, and
every other character — control bytes below 0x20 included — is written
unchanged.  The `\u00XX` escaping of the remaining control bytes belongs
to the JSON string escaper (`EscapeJSON`), not to Text values. -/
theorem c8_text_escape_amended :
    (∀ s : String, s.data.any needQuoteChar = true →
        writeTextValue s = "\"" ++ String.join (s.data.map escapeTextChar) ++ "\"")
    ∧ escapeTextChar '"' = "\\\""
    ∧ escapeTextChar '\\' = "\\\\"
    ∧ escapeTextChar '\n' = "\\n"
    ∧ escapeTextChar '\r' = "\\r"
    ∧ escapeTextChar '\t' = "\\t"
    ∧ (∀ c : Char, c ≠ '"' → c ≠ '\\' → c ≠ '\n' → c ≠ '\r' → c ≠ '\t' →
        escapeTextChar c = String.singleton c)
    ∧ (∀ c : Char, c.toNat < 0x20 → c ≠ '\n' → c ≠ '\r' → c ≠ '\t' →
        escapeJSONChar c = "\\u00"
          ++ String.singleton ("0123456789abcdef".data.getD (c.toNat >>> 4) '0')
          ++ String.singleton ("0123456789abcdef".data.getD (c.toNat &&& 0xf) '0')) := by
  refine ⟨fun s hs => ?_, rfl, rfl, rfl, rfl, rfl, fun c h1 h2 h3 h4 h5 => ?_,
    fun c hlt h3 h4 h5 => ?_⟩
  · rw [writeTextValue]
    simp [hs]
  · rw [escapeTextChar, if_neg h1, if_neg h2, if_neg h3, if_neg h4, if_neg h5]
  · have h1 : c ≠ '"' := by
      intro he
      subst he
      simp at hlt
    have h2 : c ≠ '\\' := by
      intro he
      subst he
      simp at hlt
    rw [escapeJSONChar, if_neg h1, if_neg h2, if_neg h3, if_neg h4, if_neg h5,
      if_pos hlt]

/-- Witness for C8 (amended): a tab-bearing value, tab escaping, a
passed-through 0x01 byte, and `EscapeJSON`'s `\u0001`. -/
theorem c8_text_escape_amended_witness :
    writeTextValue "a\tb"
        = "\"" ++ String.join ("a\tb".data.map escapeTextChar) ++ "\""
      ∧ escapeTextChar '\x01' = String.singleton '\x01'
      ∧ escapeJSONChar '\x01' = "\\u00"
          ++ String.singleton ("0123456789abcdef".data.getD (('\x01').toNat >>> 4) '0')
          ++ String.singleton ("0123456789abcdef".data.getD (('\x01').toNat &&& 0xf) '0') :=
  ⟨c8_text_escape_amended.1 "a\tb" (by decide),
   (c8_text_escape_amended.2.2.2.2.2.2.1 '\x01'
     (by decide) (by decide) (by decide) (by decide) (by decide)),
   (c8_text_escape_amended.2.2.2.2.2.2.2 '\x01'
     (by decide) (by decide) (by decide) (by decide))⟩

/-- Scanner state: inside a top-level string value. -/
def stInStr (keys : List String) : ScanSt :=
  { depth := 1, inStr := true, esc := false, isKey := false,
    expectKey := false, cur := [], keys := keys }

/-- Scanner state: at top level, between members. -/
def stOut (keys : List String) : ScanSt :=
  { depth := 1, inStr := false, esc := false, isKey := false,
    expectKey := false, cur := [], keys := keys }

/-- Scanning a concatenation scans the parts in order. -/
theorem scanList_append (a b : List Char) (st : ScanSt) :
    scanList (a ++ b) st = scanList b (scanList a st) := by
  simp [scanList, List.foldl_append]

/-- String version of `scanList_append`. -/
theorem scanList_strcat (a b : String) (st : ScanSt) :
    scanList (a ++ b).data st = scanList b.data (scanList a.data st) :=
  scanList_append a.data b.data st

/-- A character that is neither a quote nor a backslash leaves an
in-string-value state unchanged. -/
theorem scanStep_tame (keys : List String) (c : Char)
    (h1 : c ≠ '"') (h2 : c ≠ '\\') :
    scanStep (stInStr keys) c = stInStr keys := by
  simp [scanStep, stInStr, h1, h2]

/-- Quote-free, backslash-free content leaves an in-string-value state
unchanged. -/
theorem scanList_tame (l : List Char) (keys : List String)
    (h : ∀ c ∈ l, c ≠ '"' ∧ c ≠ '\\') :
    scanList l (stInStr keys) = stInStr keys := by
  induction l with
  | nil => rfl
  | cons c rest ih =>
    have hc := h c (by simp)
    rw [show scanList (c :: rest) (stInStr keys)
        = scanList rest (scanStep (stInStr keys) c) from rfl]
    rw [scanStep_tame keys c hc.1 hc.2]
    exact ih (fun c2 hc2 => h c2 (by simp [hc2]))

/-- Hex digits drawn from the digit table are neither quotes nor
backslashes. -/
theorem hexCharTame (n : Nat) :
    ("0123456789abcdef".data.getD n '0') ≠ '"'
      ∧ ("0123456789abcdef".data.getD n '0') ≠ '\\' := by
  by_cases h : n < 16
  · interval_cases n <;> exact ⟨by decide, by decide⟩
  · rw [List.getD_eq_default]
    · exact ⟨by decide, by decide⟩
    · exact (by omega : (16 : Nat) ≤ n)

/-- One escaped character of `EscapeJSON` keeps the scanner inside the
string value. -/
theorem scan_escChar (c : Char) (keys : List String) :
    scanList (escapeJSONChar c).data (stInStr keys) = stInStr keys := by
  by_cases h1 : c = '"'
  · subst h1; rfl
  by_cases h2 : c = '\\'
  · subst h2; rfl
  by_cases h3 : c = '\n'
  · subst h3; rfl
  by_cases h4 : c = '\r'
  · subst h4; rfl
  by_cases h5 : c = '\t'
  · subst h5; rfl
  by_cases h6 : c.toNat < 0x20
  · rw [escapeJSONChar, if_neg h1, if_neg h2, if_neg h3, if_neg h4, if_neg h5,
      if_pos h6]
    have hx1 := hexCharTame (c.toNat >>> 4)
    have hx2 := hexCharTame (c.toNat &&& 0xf)
    rw [show ("\\u00"
          ++ String.singleton ("0123456789abcdef".data.getD (c.toNat >>> 4) '0')
          ++ String.singleton ("0123456789abcdef".data.getD (c.toNat &&& 0xf) '0')).data
        = '\\' :: 'u' :: '0' :: '0'
          :: ("0123456789abcdef".data.getD (c.toNat >>> 4) '0')
          :: ("0123456789abcdef".data.getD (c.toNat &&& 0xf) '0') :: [] from rfl]
    rw [show scanList ('\\' :: 'u' :: '0' :: '0'
          :: ("0123456789abcdef".data.getD (c.toNat >>> 4) '0')
          :: ("0123456789abcdef".data.getD (c.toNat &&& 0xf) '0') :: []) (stInStr keys)
        = scanStep (scanStep (stInStr keys)
            ("0123456789abcdef".data.getD (c.toNat >>> 4) '0'))
            ("0123456789abcdef".data.getD (c.toNat &&& 0xf) '0') from rfl]
    rw [scanStep_tame keys _ hx1.1 hx1.2, scanStep_tame keys _ hx2.1 hx2.2]
  · rw [escapeJSONChar, if_neg h1, if_neg h2, if_neg h3, if_neg h4, if_neg h5,
      if_neg h6]
    rw [show (String.singleton c).data = [c] from rfl]
    rw [show scanList [c] (stInStr keys) = scanStep (stInStr keys) c from rfl]
    exact scanStep_tame keys c h1 h2

/-- A fully escaped message body keeps the scanner inside the string
value. -/
theorem scan_escLoop (l : List Char) (keys : List String) :
    scanList (escLoop l).data (stInStr keys) = stInStr keys := by
  induction l with
  | nil => rfl
  | cons c rest ih =>
    rw [escLoop, scanList_strcat, scan_escChar c keys, ih]

/-- The line opener through the opening quote of the time value. -/
theorem scan_chunk_time : scanList "\x7b\"time\":\"".data scanInit = stInStr ["time"] := rfl

/-- Closing quote of a string value. -/
theorem scan_quote_close (keys : List String) :
    scanList "\"".data (stInStr keys) = stOut keys := rfl

/-- Opening quote of a string value. -/
theorem scan_quote_open (keys : List String) :
    scanList "\"".data (stOut keys) = stInStr keys := rfl

/-- Chunk `,"level":"` — records the `level` key, enters its value. -/
theorem scan_sep_level (keys : List String) :
    scanList ",\"level\":\"".data (stOut keys) = stInStr (keys ++ ["level"]) := rfl

/-- Chunk `,"msg":` — records the `msg` key. -/
theorem scan_sep_msg (keys : List String) :
    scanList ",\"msg\":".data (stOut keys) = stOut (keys ++ ["msg"]) := rfl

/-- Chunk `,"source":"` — records the `source` key, enters its value. -/
theorem scan_sep_source (keys : List String) :
    scanList ",\"source\":\"".data (stOut keys) = stInStr (keys ++ ["source"]) := rfl

/-- The level name never contains quotes or backslashes. -/
theorem scan_levelName (lv : Level) (keys : List String) :
    scanList (LevelName lv).data (stInStr keys) = stInStr keys := by
  rw [LevelName]
  split_ifs <;> rfl

/-- An empty attribute set under no groups writes nothing. -/
theorem scan_writeAttrs_nil (st : ScanSt) :
    scanList (JSONFormatter.writeAttrs [] []).data st = st := rfl

/-- The closing brace and newline. -/
theorem scan_end (keys : List String) :
    scanList "\x7d\n".data (stOut keys)
      = { depth := 0, inStr := false, esc := false, isKey := false,
          expectKey := false, cur := [], keys := keys } := rfl

/-- For any record carrying a source, no attributes and no groups, the
JSON line's top-level keys are exactly time, level, msg, source, in that
order — provided the rendered time and source contain no quote or
backslash. -/
theorem jsonTopKeys_no_attrs (f : JSONFormatter) (gt : GoTimeFormat) (t0 : Time)
    (lv : Level) (msg : String) (s : Source)
    (ht : ∀ c ∈ (formatTime gt (f.opts.Location t0) f.opts.TimeFormat).data,
        c ≠ '"' ∧ c ≠ '\\')
    (hs : ∀ c ∈ (FormatSource s f.opts).data, c ≠ '"' ∧ c ≠ '\\') :
    jsonTopKeys (f.Format gt
      { Time := t0, Level := lv, Message := msg, Attrs := [],
        Source := some s, Groups := [] })
      = ["time", "level", "msg", "source"] := by
  rw [jsonTopKeys]
  simp only [JSONFormatter.Format, writeJSONString, EscapeJSON, scanList_strcat]
  rw [scan_chunk_time, scanList_tame _ _ ht, scan_quote_close, scan_sep_level,
    scan_levelName, scan_quote_close, scan_sep_msg, scan_quote_open,
    scan_escLoop, scan_quote_close, scan_sep_source, scanList_tame _ _ hs,
    scan_quote_close, scan_writeAttrs_nil, scan_end]
  rfl

/-- A record with a source and one attribute. -/
def c3Record : Record :=
  { Time := 0, Level := LevelInfo, Message := "m",
    Attrs := [("user", Value.str "alice")],
    Source := some { Function := "fn", File := "/a/b/c.go", Line := 42 },
    Groups := [] }

/-- Its JSON line under the default options. -/
def c3JsonOut : String :=
  JSONFormatter.Format { opts := defaultOptions locId } gtNum c3Record

example : c3JsonOut
    = "\x7b\"time\":\"0\",\"level\":\"INFO\",\"msg\":\"m\",\"source\":\"a/b/c.go:42\",\"user\":\"alice\"\x7d\n" := rfl

/-- C3: the claim says `source`, when present, is the last key of the
JSON object (and last in the Text ordering).  It is not: both formatters
write `source` directly after `msg`, before the attributes — here the
last JSON key is `user`, and the Text line ends with `user=alice`. -/
theorem c3_key_order_counterexample :
    c3Record.Source.isSome = true
      ∧ jsonTopKeys c3JsonOut = ["time", "level", "msg", "source", "user"]
      ∧ (jsonTopKeys c3JsonOut).getLast? = some "user"
      ∧ "user" ≠ "source"
      ∧ TextFormatter.Format textFmtDefault gtNum c3Record
          = "time=0 level=INFO msg=m source=a/b/c.go:42 user=alice\n" :=
  ⟨rfl, rfl, rfl, by decide, rfl⟩

/-- C3 (amended): in both line formats the fixed header order is time,
level, msg, and `source`, when present, comes **immediately after msg**,
before all attributes and groups — not last.  The first two conjuncts
spell out the exact write order of the two formatters for every record;
the third confirms at the key level that for a record with no
attributes/groups the JSON keys are exactly
time, level, msg, source, in order. -/
theorem c3_key_order_amended :
    (∀ (f : JSONFormatter) (gt : GoTimeFormat) (r : Record),
        f.Format gt r
          = "\x7b\"time\":\"" ++ formatTime gt (f.opts.Location r.Time) f.opts.TimeFormat ++ "\""
            ++ ",\"level\":\"" ++ LevelName r.Level ++ "\""
            ++ ",\"msg\":" ++ writeJSONString r.Message
            ++ (match r.Source with
                | some s => ",\"source\":\"" ++ FormatSource s f.opts ++ "\""
                | none => "")
            ++ JSONFormatter.writeAttrs r.Attrs r.Groups
            ++ "\x7d\n")
    ∧ (∀ (f : TextFormatter) (gt : GoTimeFormat) (r : Record),
        f.Format gt r
          = "time=" ++ formatTime gt (f.opts.Location r.Time) f.opts.TimeFormat
            ++ " level=" ++ LevelName r.Level
            ++ " msg=" ++ writeTextValue r.Message
            ++ (match r.Source with
                | some s => " source=" ++ FormatSource s f.opts
                | none => "")
            ++ TextFormatter.writeAttrs r.Attrs r.Groups
            ++ "\n")
    ∧ (∀ (f : JSONFormatter) (gt : GoTimeFormat) (t0 : Time) (lv : Level)
          (msg : String) (s : Source),
        (∀ c ∈ (formatTime gt (f.opts.Location t0) f.opts.TimeFormat).data,
            c ≠ '"' ∧ c ≠ '\\') →
        (∀ c ∈ (FormatSource s f.opts).data, c ≠ '"' ∧ c ≠ '\\') →
        jsonTopKeys (f.Format gt
            { Time := t0, Level := lv, Message := msg, Attrs := [],
              Source := some s, Groups := [] })
          = ["time", "level", "msg", "source"]) :=
  ⟨fun _ _ _ => rfl, fun _ _ _ => rfl,
   fun f gt t0 lv msg s ht hs => jsonTopKeys_no_attrs f gt t0 lv msg s ht hs⟩

/-- Witness for C3 (amended) at the default JSON formatter and a concrete
source. -/
theorem c3_key_order_amended_witness :
    jsonTopKeys (JSONFormatter.Format { opts := defaultOptions locId } gtNum
        { Time := 0, Level := LevelInfo, Message := "m", Attrs := [],
          Source := some { Function := "fn", File := "/a/b/c.go", Line := 42 },
          Groups := [] })
      = ["time", "level", "msg", "source"] :=
  c3_key_order_amended.2.2 { opts := defaultOptions locId } gtNum 0 LevelInfo "m"
    { Function := "fn", File := "/a/b/c.go", Line := 42 }
    (by decide) (by decide)
